import Mathlib

/-!
Verification of the realtime voice chat client
(`src/react/src/app/chat-interface.tsx`).

The development shallowly embeds the session-orchestration logic of the
component: the message log, the response-stream processor
(`handleResponse`), the function-call handling (`get_time` / `search`),
the connect guard (`handleConnect`), `disconnect`, `sendMessage` and
`handleInputAudio`.  Stateful TypeScript code becomes explicit state
passing; `await`ed external calls become oracle parameters recording
whether the call succeeded and what it returned; the observable effects
(network sends, log appends, teardown calls) become explicit action
traces.
-/

namespace VoiceLive

/-- `interface Message { type: "user" | "assistant" | "status" | "error"; content }`. -/
inductive MsgType
  | user
  | assistant
  | status
  | error
deriving DecidableEq, Repr

/-- One entry of the append-only message log rendered by the UI. -/
structure Message where
  type : MsgType
  content : String
deriving DecidableEq, Repr

/-- One content part of an assistant message item: a `text` part carries its
ordered `textChunks()`, an `audio` part carries its ordered
`transcriptChunks()` and the number of `audioChunks()`. -/
inductive ContentPart
  | text (chunks : List String)
  | audio (transcript : List String) (audioChunks : Nat)
deriving DecidableEq, Repr

/-- The text fragments a content part contributes to the open assistant
message: text chunks for a `text` part, transcript chunks for an `audio`
part (audio bytes never touch `message.content`). -/
def partChunks : ContentPart → List String
  | .text cs => cs
  | .audio ts _ => ts

/-- Ordered concatenation of a fragment list (the spec's notion of the
rendered content; the source accumulates it by repeated `+=`). -/
def concatChunks : List String → String
  | [] => ""
  | c :: cs => c ++ concatChunks cs

/-- `message.content += text` followed by rewriting the last log entry:
in `handleResponse` the object appended to the log is the very object
being mutated, so each arriving fragment appends to the content of the
last entry of the log. -/
def appendToLast : List Message → String → List Message
  | [], _ => []
  | [m], s => [⟨m.type, m.content ++ s⟩]
  | m :: m2 :: rest, s => m :: appendToLast (m2 :: rest) s

/-- Consume one fragment stream (`for await (const text of ...)`),
appending every fragment to the last log entry in arrival order. -/
def streamChunks (log : List Message) (chunks : List String) : List Message :=
  chunks.foldl appendToLast log

/-- The log effect of the assistant-message branch of `handleResponse`
(lines 747–789): push one fresh assistant `Message` with empty content,
then stream every content part's text fragments into it, parts in
server-delivery order. -/
def processAssistantItem (parts : List ContentPart) (log : List Message) : List Message :=
  parts.foldl (fun l p => streamChunks l (partChunks p)) (log ++ [⟨.assistant, ""⟩])

/-- All text fragments of an assistant message item in arrival order. -/
def itemFragments (parts : List ContentPart) : List String :=
  (parts.map partChunks).flatten

theorem appendToLast_concat (l : List Message) (m : Message) (s : String) :
    appendToLast (l ++ [m]) s = l ++ [⟨m.type, m.content ++ s⟩] := by
  induction l with
  | nil => rfl
  | cons a l ih =>
    cases l with
    | nil => rfl
    | cons b l2 => simpa [appendToLast] using ih

theorem streamChunks_concat (l : List Message) (m : Message) (cs : List String) :
    streamChunks (l ++ [m]) cs = l ++ [⟨m.type, m.content ++ concatChunks cs⟩] := by
  induction cs generalizing m with
  | nil => simp [streamChunks, concatChunks]
  | cons c cs ih =>
    show streamChunks (appendToLast (l ++ [m]) c) cs = _
    rw [appendToLast_concat]
    rw [ih ⟨m.type, m.content ++ c⟩]
    simp [concatChunks, String.append_assoc]

theorem concatChunks_append (a b : List String) :
    concatChunks (a ++ b) = concatChunks a ++ concatChunks b := by
  induction a with
  | nil =>
    simp only [List.nil_append, concatChunks]
    exact (String.empty_append _).symm
  | cons c a ih => simp [concatChunks, ih, String.append_assoc]

theorem processAssistantItem_foldl (parts : List ContentPart) (l : List Message) (m : Message) :
    parts.foldl (fun l p => streamChunks l (partChunks p)) (l ++ [m]) =
      l ++ [⟨m.type, m.content ++ concatChunks (itemFragments parts)⟩] := by
  induction parts generalizing m with
  | nil => simp [itemFragments, concatChunks]
  | cons p ps ih =>
    show ps.foldl _ (streamChunks (l ++ [m]) (partChunks p)) = _
    rw [streamChunks_concat, ih]
    simp [itemFragments, concatChunks_append, String.append_assoc]

/-- **C1.** For every assistant message item, `handleResponse` appends
exactly one new `Message` entry to the log, and once every text fragment
of the item has been consumed that entry's content is the ordered
concatenation of the fragments in arrival order. -/
theorem assistant_item_single_message (parts : List ContentPart) (log : List Message) :
    processAssistantItem parts log =
      log ++ [⟨.assistant, concatChunks (itemFragments parts)⟩] ∧
    (processAssistantItem parts log).length = log.length + 1 := by
  have h : processAssistantItem parts log =
      log ++ [⟨.assistant, concatChunks (itemFragments parts)⟩] := by
    show parts.foldl _ (log ++ [⟨.assistant, ""⟩]) = _
    rw [processAssistantItem_foldl]
    simp [String.empty_append]
  exact ⟨h, by simp [h]⟩

/-! ### Event-trace semantics of the content-part loop (C2)

`handleResponse` runs the two sub-tasks of an audio content part with
`await Promise.all([textTask(), audioTask()])`: on the single-threaded
cooperative scheduler their steps interleave arbitrarily, but the loop
only advances to the next content part once both have completed. -/

/-- One observable step of the content-part loop: a text chunk appended,
a transcript chunk appended, or an audio chunk forwarded to playback
(audio chunks are identified by their position in the stream). -/
inductive Ev
  | textChunk (s : String)
  | transcriptChunk (s : String)
  | audioChunk (n : Nat)
deriving DecidableEq, Repr

/-- `Interleaving xs ys zs`: `zs` is an arbitrary cooperative
interleaving of the two step sequences `xs` and `ys`, each kept in its
own order. -/
inductive Interleaving : List Ev → List Ev → List Ev → Prop
  | nil : Interleaving [] [] []
  | left {x xs ys zs} : Interleaving xs ys zs → Interleaving (x :: xs) ys (x :: zs)
  | right {y xs ys zs} : Interleaving xs ys zs → Interleaving xs (y :: ys) (y :: zs)

/-- All steps a content part contributes: its text chunks, or the steps
of its two sub-tasks (transcript appends and playback forwards). -/
def partEvents : ContentPart → List Ev
  | .text cs => cs.map Ev.textChunk
  | .audio ts n => ts.map Ev.transcriptChunk ++ (List.range n).map Ev.audioChunk

/-- Traces of the `for await (const content of item)` loop: a text part
emits its chunks in order; an audio part emits some interleaving of its
transcript sub-task and its playback sub-task, and — because of
`await Promise.all` — the remaining parts' steps only start afterwards. -/
inductive PartLoopTrace : List ContentPart → List Ev → Prop
  | nil : PartLoopTrace [] []
  | text {cs ps t} : PartLoopTrace ps t →
      PartLoopTrace (ContentPart.text cs :: ps) (cs.map Ev.textChunk ++ t)
  | audio {ts n s ps t} :
      Interleaving (ts.map Ev.transcriptChunk) ((List.range n).map Ev.audioChunk) s →
      PartLoopTrace ps t →
      PartLoopTrace (ContentPart.audio ts n :: ps) (s ++ t)

theorem Interleaving.perm {xs ys zs : List Ev} (h : Interleaving xs ys zs) :
    zs.Perm (xs ++ ys) := by
  induction h with
  | nil => exact List.Perm.refl _
  | left _ ih => exact ih.cons _
  | right _ ih => exact (ih.cons _).trans List.perm_middle.symm

/-- **C2.** Every trace of the content-part loop splits into one
contiguous segment per content part, in server-delivery order, and the
segment of each part contains exactly the steps of that part — for an
audio part, all transcript-accumulation steps and all
playback-forwarding steps.  Hence both sub-tasks of an audio part run to
completion before any step of the next content part occurs: no part is
skipped while a sub-task is pending. -/
theorem audio_part_fan_in {ps : List ContentPart} {tr : List Ev}
    (h : PartLoopTrace ps tr) :
    ∃ segs : List (List Ev), tr = segs.flatten ∧
      List.Forall₂ (fun seg p => seg.Perm (partEvents p)) segs ps := by
  induction h with
  | nil => exact ⟨[], rfl, List.Forall₂.nil⟩
  | @text cs ps t _ ih =>
    obtain ⟨segs, rfl, hf⟩ := ih
    exact ⟨cs.map Ev.textChunk :: segs, rfl,
      List.Forall₂.cons (List.Perm.refl _) hf⟩
  | @audio ts n s ps t hint _ ih =>
    obtain ⟨segs, rfl, hf⟩ := ih
    exact ⟨s :: segs, rfl, List.Forall₂.cons hint.perm hf⟩

/-- Witness for C2: a concrete two-part trace — an audio part whose
playback step is scheduled before its transcript step, followed by a
text part — is a loop trace, and the theorem's segment decomposition
holds for it. -/
theorem audio_part_fan_in_witness :
    PartLoopTrace [ContentPart.audio ["hi"] 1, ContentPart.text ["ok"]]
      [Ev.audioChunk 0, Ev.transcriptChunk "hi", Ev.textChunk "ok"] ∧
    ∃ segs : List (List Ev),
      [Ev.audioChunk 0, Ev.transcriptChunk "hi", Ev.textChunk "ok"] = segs.flatten ∧
      List.Forall₂ (fun seg p => seg.Perm (partEvents p)) segs
        [ContentPart.audio ["hi"] 1, ContentPart.text ["ok"]] := by
  have h : PartLoopTrace [ContentPart.audio ["hi"] 1, ContentPart.text ["ok"]]
      [Ev.audioChunk 0, Ev.transcriptChunk "hi", Ev.textChunk "ok"] := by
    have hint : Interleaving (List.map Ev.transcriptChunk ["hi"])
        (List.map Ev.audioChunk (List.range 1))
        [Ev.audioChunk 0, Ev.transcriptChunk "hi"] := by
      show Interleaving [Ev.transcriptChunk "hi"] [Ev.audioChunk 0] _
      exact Interleaving.right (Interleaving.left Interleaving.nil)
    exact PartLoopTrace.audio hint (PartLoopTrace.text PartLoopTrace.nil)
  exact ⟨h, audio_part_fan_in h⟩

/-! ### Inbound user-audio handling (C10) -/

/-- One step of `handleInputAudio` (lines 858–870), in program order. -/
inductive InputAudioStep
  | setUserSpeaking (b : Bool)
  | stopStreamingPlayback
  | waitForCompletion
  | appendUserMessage (content : String)
deriving DecidableEq, Repr

/-- `handleInputAudio`: mark the user as speaking, stop any ongoing
assistant playback, await the input item's completion, clear the
speaking flag, then append one user `Message` whose content is the
item's transcription (`item.transcription || ""`). -/
def handleInputAudio (transcription : Option String) (log : List Message) :
    List InputAudioStep × List Message :=
  ([.setUserSpeaking true, .stopStreamingPlayback, .waitForCompletion,
    .setUserSpeaking false, .appendUserMessage (transcription.getD "")],
   log ++ [⟨.user, transcription.getD ""⟩])

/-- **C10.** For every `input_audio` event, ongoing assistant playback
is stopped strictly before the handler awaits the item's completion, and
only after completion is exactly one user `Message` appended, carrying
the transcription (empty when unavailable): the step trace is exactly
stop-playback, await-completion, then the single append. -/
theorem input_audio_barge_in (t : Option String) (log : List Message) :
    (handleInputAudio t log).1 =
      [.setUserSpeaking true, .stopStreamingPlayback, .waitForCompletion,
       .setUserSpeaking false, .appendUserMessage (t.getD "")] ∧
    (handleInputAudio t log).1.indexOf .stopStreamingPlayback <
      (handleInputAudio t log).1.indexOf .waitForCompletion ∧
    (handleInputAudio t log).2 = log ++ [⟨.user, t.getD ""⟩] ∧
    (handleInputAudio t log).2.length = log.length + 1 := by
  refine ⟨rfl, ?_, rfl, by simp [handleInputAudio]⟩
  simp [handleInputAudio, List.indexOf_cons]

/-! ### Function-call handling (C3, C6, C9)

The `functionCall` branch of `handleResponse` (lines 790–845): after
`waitForCompletion`, the item is dispatched by name — `get_time` sends a
locale-formatted timestamp back, `search` queries the lookup client and
sends the formatted results back, and any other name falls through the
`if`/`else if` chain. -/

/-- Calendar/clock components of the current `Date`, as consumed by
`toLocaleString("en-US", {...})`. -/
structure DateParts where
  weekday : Fin 7
  month : Fin 12
  day : Nat
  year : Nat
  hour12 : Nat
  minute : Nat
  second : Nat
  isPM : Bool
  tzName : String
deriving DecidableEq, Repr

def weekdayName (w : Fin 7) : String :=
  ["Sunday", "Monday", "Tuesday", "Wednesday", "Thursday", "Friday",
   "Saturday"].get w

def monthName (m : Fin 12) : String :=
  ["January", "February", "March", "April", "May", "June", "July",
   "August", "September", "October", "November", "December"].get m

def twoDigit (n : Nat) : String :=
  if n < 10 then "0" ++ toString n else toString n

/-- Model of `new Date().toLocaleString("en-US", { weekday: "long",
year: "numeric", month: "long", day: "numeric", hour: "2-digit",
minute: "2-digit", second: "2-digit", timeZoneName: "short" })`,
e.g. `"Monday, June 10, 2024 at 03:04:05 PM PDT"`. -/
def toLocaleStringEnUS (d : DateParts) : String :=
  weekdayName d.weekday ++ ", " ++ monthName d.month ++ " " ++
  toString d.day ++ ", " ++ toString d.year ++ " at " ++
  twoDigit d.hour12 ++ ":" ++ twoDigit d.minute ++ ":" ++
  twoDigit d.second ++ " " ++ (if d.isPM then "PM" else "AM") ++ " " ++
  d.tzName

/-- One `functionCall` response item: `{functionName, arguments, callId}`. -/
structure FunctionCallItem where
  functionName : String
  arguments : String
  callId : String
deriving DecidableEq, Repr

/-- One ranked result from the lookup client, as the two selected
fields `searchIdentifierField` / `searchContentField`. -/
structure SearchResult where
  identifier : String
  content : String
deriving DecidableEq, Repr

/-- The block one result contributes to the output string. -/
def resultBlock (r : SearchResult) : String :=
  "[" ++ r.identifier ++ "]: " ++ r.content ++ "\n-----\n"

/-- `resultText += `[${id}]: ${content}\n-----\n`` over the ranked
results, starting from the empty string. -/
def formatSearchResults (rs : List SearchResult) : String :=
  rs.foldl (fun acc r => acc ++ resultBlock r) ""

/-- An outbound conversation turn handed to `sendItem`. -/
inductive OutboundItem
  | functionCallOutput (output callId : String)
  | userText (text : String)
deriving DecidableEq, Repr

/-- An observable action of a handler: a network send, a response
request, or a log append. -/
inductive Action
  | sendItem (item : OutboundItem)
  | generateResponse
  | appendMessage (m : Message)
deriving DecidableEq, Repr

/-- An exception escaping the `functionCall` branch (there is no
`try`/`catch` around it, so it propagates out of `handleResponse`).
`unknownTool` exists only so the spec's `UnknownToolError` is statable:
no code path produces it. -/
inductive DispatchErr
  | parseError
  | searchError
  | unknownTool
deriving DecidableEq, Repr

/-- The `await`ed external state the `functionCall` branch reads:
the current time, whether `clientRef.current` / `searchClientRef.current`
are set, the result of `JSON.parse(item.arguments).query` (`none` =
parse throws), and the lookup call's outcome (`none` = it throws). -/
structure DispatchEnv where
  now : DateParts
  client : Option Unit
  searchClient : Option Unit
  parsedQuery : Option String
  searchOutcome : Option (List SearchResult)
deriving DecidableEq, Repr

/-- The `functionCall` branch of `handleResponse`: the actions it
performs, in order, and the exception it raises, if any.  `get_time`
formats the current time and — when the client is still set — sends one
`function_call_output` then requests one response; `search` parses the
query, and only when the lookup client is configured appends a status
message, runs the lookup and sends its formatted output; any other
function name matches no branch and nothing happens. -/
def handleFunctionCall (env : DispatchEnv) (item : FunctionCallItem) :
    List Action × Option DispatchErr :=
  if item.functionName = "get_time" then
    match env.client with
    | some _ =>
        ([.sendItem (.functionCallOutput (toLocaleStringEnUS env.now) item.callId),
          .generateResponse], none)
    | none => ([], none)
  else if item.functionName = "search" then
    match env.parsedQuery with
    | none => ([], some .parseError)
    | some query =>
      match env.searchClient with
      | none => ([], none)
      | some _ =>
        let statusMsg : Message := ⟨.status, "Searching [" ++ query ++ "]..."⟩
        match env.searchOutcome with
        | none => ([.appendMessage statusMsg], some .searchError)
        | some rs =>
          match env.client with
          | some _ =>
              ([.appendMessage statusMsg,
                .sendItem (.functionCallOutput (formatSearchResults rs) item.callId),
                .generateResponse], none)
          | none => ([.appendMessage statusMsg], none)
  else ([], none)

theorem toLocaleStringEnUS_ne_empty (d : DateParts) : toLocaleStringEnUS d ≠ "" := by
  have hpos : 0 < (toLocaleStringEnUS d).length := by
    rw [toLocaleStringEnUS]
    simp only [String.length_append]
    have h2 : String.length ", " = 2 := by decide
    omega
  intro h
  rw [h] at hpos
  exact absurd hpos (by decide)

/-- **C3.** While the client is set, a `functionCall` item named
`get_time` makes the handler perform exactly two actions, in this
order: one `sendItem` of a `function_call_output` carrying the item's
call id and the non-empty locale-formatted timestamp, then one
`generateResponse` — never the reverse order, and no exception. -/
theorem get_time_round_trip (env : DispatchEnv) (args callId : String)
    (hc : env.client = some ()) :
    handleFunctionCall env ⟨"get_time", args, callId⟩ =
      ([.sendItem (.functionCallOutput (toLocaleStringEnUS env.now) callId),
        .generateResponse], none) ∧
    toLocaleStringEnUS env.now ≠ "" := by
  constructor
  · simp [handleFunctionCall, hc]
  · exact toLocaleStringEnUS_ne_empty env.now

/-- A fixed instant used by the concrete witnesses. -/
def sampleNow : DateParts :=
  ⟨⟨1, by decide⟩, ⟨5, by decide⟩, 10, 2024, 3, 4, 5, true, "PDT"⟩

/-- Witness for C3 at a concrete environment. -/
theorem get_time_round_trip_witness :
    (⟨sampleNow, some (), none, none, none⟩ : DispatchEnv).client = some () ∧
    (handleFunctionCall ⟨sampleNow, some (), none, none, none⟩
        ⟨"get_time", "", "call-1"⟩ =
      ([.sendItem (.functionCallOutput (toLocaleStringEnUS sampleNow) "call-1"),
        .generateResponse], none) ∧
     toLocaleStringEnUS sampleNow ≠ "") :=
  ⟨rfl, get_time_round_trip ⟨sampleNow, some (), none, none, none⟩ "" "call-1" rfl⟩

theorem formatSearchResults_foldl (rs : List SearchResult) (acc : String) :
    rs.foldl (fun a r => a ++ resultBlock r) acc =
      acc ++ concatChunks (rs.map resultBlock) := by
  induction rs generalizing acc with
  | nil => simp [concatChunks]
  | cons r rs ih =>
    show rs.foldl _ (acc ++ resultBlock r) = _
    rw [ih]
    simp [concatChunks, String.append_assoc]

/-- The accumulated `resultText` is the ordered concatenation of one
block per ranked result. -/
theorem formatSearchResults_concat (rs : List SearchResult) :
    formatSearchResults rs = concatChunks (rs.map resultBlock) := by
  rw [formatSearchResults, formatSearchResults_foldl]
  exact String.empty_append _

/-- **C6 counterexample.** With the lookup client not configured, the
`search` branch of `handleFunctionCall` performs no action at all: in
particular it does not send a `function_call_output` turn carrying the
empty string, contradicting the claim that the dispatch "returns the
empty string" in that case. -/
theorem search_unconfigured_counterexample :
    handleFunctionCall ⟨sampleNow, some (), none, some "test", none⟩
        ⟨"search", "\x7b\"query\": \"test\"\x7d", "call-6"⟩ = ([], none) ∧
    Action.sendItem (OutboundItem.functionCallOutput "" "call-6") ∉
      (handleFunctionCall ⟨sampleNow, some (), none, some "test", none⟩
        ⟨"search", "\x7b\"query\": \"test\"\x7d", "call-6"⟩).1 := by
  have h : handleFunctionCall ⟨sampleNow, some (), none, some "test", none⟩
      ⟨"search", "\x7b\"query\": \"test\"\x7d", "call-6"⟩ = ([], none) := rfl
  exact ⟨h, by simp [h]⟩

/-- **C6 (amended).** With the lookup client configured (and the client
still set), the `search` output string is the concatenation, in ranked
order, of one `[<identifier>]: <content>\n-----\n` block per result —
one block per result, and the empty string for zero results.  With the
lookup client not configured, the handler performs no action at all:
no `function_call_output` turn (empty or otherwise) is sent, and no
error is raised. -/
theorem search_output_format (env : DispatchEnv) (q args callId : String)
    (hq : env.parsedQuery = some q) (hc : env.client = some ()) :
    (∀ rs, env.searchClient = some () → env.searchOutcome = some rs →
       handleFunctionCall env ⟨"search", args, callId⟩ =
         ([.appendMessage ⟨.status, "Searching [" ++ q ++ "]..."⟩,
           .sendItem (.functionCallOutput (concatChunks (rs.map resultBlock)) callId),
           .generateResponse], none) ∧
       (rs.map resultBlock).length = rs.length) ∧
    formatSearchResults [] = "" ∧
    (env.searchClient = none →
       handleFunctionCall env ⟨"search", args, callId⟩ = ([], none)) := by
  have hne : ("search" : String) ≠ "get_time" := by decide
  refine ⟨fun rs hsc hso => ⟨?_, by simp⟩, rfl, fun hsc => ?_⟩
  · simp [handleFunctionCall, hne, hq, hsc, hso, hc, formatSearchResults_concat]
  · simp [handleFunctionCall, hne, hq, hsc]

/-- Witness for the amended C6 at a concrete environment with two
results and at one with the lookup client missing. -/
theorem search_output_format_witness :
    ((⟨sampleNow, some (), some (), some "test",
        some [⟨"doc1", "alpha"⟩, ⟨"doc2", "beta"⟩]⟩ : DispatchEnv).parsedQuery
        = some "test" ∧
     (⟨sampleNow, some (), some (), some "test",
        some [⟨"doc1", "alpha"⟩, ⟨"doc2", "beta"⟩]⟩ : DispatchEnv).client = some ()) ∧
    handleFunctionCall
        ⟨sampleNow, some (), some (), some "test",
          some [⟨"doc1", "alpha"⟩, ⟨"doc2", "beta"⟩]⟩
        ⟨"search", "", "call-6b"⟩ =
      ([.appendMessage ⟨.status, "Searching [test]..."⟩,
        .sendItem (.functionCallOutput
          "[doc1]: alpha\n-----\n[doc2]: beta\n-----\n" "call-6b"),
        .generateResponse], none) := by
  refine ⟨⟨rfl, rfl⟩, ?_⟩
  have h := (search_output_format
      ⟨sampleNow, some (), some (), some "test",
        some [⟨"doc1", "alpha"⟩, ⟨"doc2", "beta"⟩]⟩
      "test" "" "call-6b" rfl rfl).1
      [⟨"doc1", "alpha"⟩, ⟨"doc2", "beta"⟩] rfl rfl
  rw [h.1]
  rfl

/-- **C9 counterexample.** A `functionCall` item for the declared but
unhandled tool `get_weather` falls through the dispatch: no
`function_call_output` turn is sent back (the conversation is left
waiting) and no `UnknownToolError` — nor any error — is raised; the
item is silently ignored. -/
theorem unknown_tool_counterexample :
    handleFunctionCall ⟨sampleNow, some (), some (), some "Seattle", some []⟩
        ⟨"get_weather", "", "call-9"⟩ = ([], none) ∧
    ¬ ((∃ out, Action.sendItem (OutboundItem.functionCallOutput out "call-9") ∈
          (handleFunctionCall ⟨sampleNow, some (), some (), some "Seattle", some []⟩
            ⟨"get_weather", "", "call-9"⟩).1) ∨
        (handleFunctionCall ⟨sampleNow, some (), some (), some "Seattle", some []⟩
          ⟨"get_weather", "", "call-9"⟩).2 = some DispatchErr.unknownTool) := by
  have h : handleFunctionCall ⟨sampleNow, some (), some (), some "Seattle", some []⟩
      ⟨"get_weather", "", "call-9"⟩ = ([], none) := rfl
  exact ⟨h, by simp [h]⟩

/-- **C9 (amended).** A `functionCall` item whose name is neither
`get_time` nor `search` matches no branch of the dispatch: no actions
are performed and no error is raised — it is silently ignored rather
than answered with an error output turn or an `UnknownToolError`.  And
when the `search` lookup call itself fails, the exception propagates
out of the handler after the status message, with no
`function_call_output` turn sent. -/
theorem unhandled_tool_silently_ignored (env : DispatchEnv) (item : FunctionCallItem)
    (h1 : item.functionName ≠ "get_time") (h2 : item.functionName ≠ "search") :
    handleFunctionCall env item = ([], none) ∧
    (∀ env2 : DispatchEnv, ∀ args callId q : String,
      env2.parsedQuery = some q → env2.searchClient = some () →
      env2.searchOutcome = none →
      handleFunctionCall env2 ⟨"search", args, callId⟩ =
        ([.appendMessage ⟨.status, "Searching [" ++ q ++ "]..."⟩],
         some DispatchErr.searchError)) := by
  constructor
  · simp [handleFunctionCall, h1, h2]
  · intro env2 args callId q hq hsc hso
    have hne : ("search" : String) ≠ "get_time" := by decide
    simp [handleFunctionCall, hne, hq, hsc, hso]

/-- Witness for the amended C9 at the concrete unregistered name
`calculate`. -/
theorem unhandled_tool_silently_ignored_witness :
    (("calculate" : String) ≠ "get_time" ∧ ("calculate" : String) ≠ "search") ∧
    handleFunctionCall ⟨sampleNow, some (), some (), some "1+1", some []⟩
        ⟨"calculate", "", "call-9b"⟩ = ([], none) :=
  ⟨⟨by decide, by decide⟩,
   (unhandled_tool_silently_ignored
      ⟨sampleNow, some (), some (), some "1+1", some []⟩
      ⟨"calculate", "", "call-9b"⟩ (by decide) (by decide)).1⟩

/-! ### The connect guard (C4, C8)

`handleConnect` (lines 476–536), modelled up to the point where the
`RTClient` is constructed; the subsequent configuration handshake is
not needed by any claim.  The guard order follows the source: the
credential object is built from `entraToken ? {getToken} : {key}`, then
agent mode without an agent id returns early with one error message,
then the client is created. -/

/-- The `clientAuth` value: a token provider when `entraToken` is a
non-empty string, otherwise `{ key: apiKey }` — whatever `apiKey` is,
including the empty string. -/
inductive ClientAuth
  | tokenProvider (token : String)
  | key (k : String)
deriving DecidableEq, Repr

/-- The third `RTClient` constructor argument. -/
inductive ModelOrAgent
  | agent (agentId projectName accessToken : String)
  | model (name : String)
deriving DecidableEq, Repr

/-- The `mode` state: `"model" | "agent"`. -/
inductive Mode
  | model
  | agent
deriving DecidableEq, Repr

/-- The component state `handleConnect` reads at the guard. -/
structure ConnInputs where
  mode : Mode
  agentId : String
  agentProjectName : String
  entraToken : String
  apiKey : String
  modelName : String
deriving DecidableEq, Repr

def clientAuth (i : ConnInputs) : ClientAuth :=
  if i.entraToken ≠ "" then .tokenProvider i.entraToken else .key i.apiKey

/-- How far the connect attempt gets before the configuration
handshake.  `authError` exists only so the spec's `AuthError` is
statable: no code path produces it — `handleConnect` performs no
credential validation. -/
inductive ConnectPhase
  | agentSelectionError
  | authError
  | clientCreated (auth : ClientAuth) (target : ModelOrAgent)
deriving DecidableEq, Repr

/-- The guard portion of `handleConnect`: build `clientAuth`, return
early when `mode === "agent" && !agentId`, otherwise construct the
client for the selected agent or model. -/
def connectPhase (i : ConnInputs) : ConnectPhase :=
  if i.mode = .agent ∧ i.agentId = "" then .agentSelectionError
  else
    .clientCreated (clientAuth i)
      (match i.mode with
       | .agent => .agent i.agentId i.agentProjectName i.entraToken
       | .model => .model i.modelName)

/-- The orchestrator state the guard can change. -/
structure ConnState where
  messages : List Message
  client : Option (ClientAuth × ModelOrAgent)
  isConnected : Bool
  isConnecting : Bool
deriving DecidableEq, Repr

/-- The state effect of `handleConnect` up to client creation: when not
connected, set `isConnecting`, then either append the single agent
error message and return (the `finally` clears `isConnecting`), or
store the created client and continue to the handshake.  When already
connected, `handleConnect` instead disconnects (not modelled here). -/
def handleConnectGuard (i : ConnInputs) (s : ConnState) : ConnState :=
  if s.isConnected then s
  else
    match connectPhase i with
    | .agentSelectionError =>
        { s with
          messages := s.messages ++ [⟨.error, "Please input/select an agent."⟩],
          isConnecting := false }
    | .authError => s
    | .clientCreated auth target =>
        { s with client := some (auth, target), isConnecting := true }

/-- **C4.** Connecting in agent mode with no agent id appends exactly
one error `Message` with content `"Please input/select an agent."`,
creates no client (the client slot is untouched), and leaves the
session disconnected: the connected flag stays `false`. -/
theorem agent_mode_requires_agent_id (i : ConnInputs) (s : ConnState)
    (hm : i.mode = .agent) (ha : i.agentId = "") (hc : s.isConnected = false) :
    (handleConnectGuard i s).messages =
      s.messages ++ [⟨.error, "Please input/select an agent."⟩] ∧
    (handleConnectGuard i s).client = s.client ∧
    (handleConnectGuard i s).isConnected = false := by
  simp [handleConnectGuard, connectPhase, hm, ha, hc]

/-- Witness for C4 at a concrete disconnected state. -/
theorem agent_mode_requires_agent_id_witness :
    ((⟨.agent, "", "proj", "tok", "", "gpt-4o-realtime-preview"⟩ : ConnInputs).mode
        = Mode.agent ∧
     (⟨.agent, "", "proj", "tok", "", "gpt-4o-realtime-preview"⟩ : ConnInputs).agentId
        = "" ∧
     (⟨[], none, false, false⟩ : ConnState).isConnected = false) ∧
    (handleConnectGuard ⟨.agent, "", "proj", "tok", "", "gpt-4o-realtime-preview"⟩
        ⟨[], none, false, false⟩).messages =
      [⟨.error, "Please input/select an agent."⟩] ∧
    (handleConnectGuard ⟨.agent, "", "proj", "tok", "", "gpt-4o-realtime-preview"⟩
        ⟨[], none, false, false⟩).client = none := by
  have h := agent_mode_requires_agent_id
    ⟨.agent, "", "proj", "tok", "", "gpt-4o-realtime-preview"⟩
    ⟨[], none, false, false⟩ rfl rfl rfl
  exact ⟨⟨rfl, rfl, rfl⟩, h.1, h.2.1⟩

/-- **C8 counterexample.** With neither an API key nor a token supplied
(both empty strings) in model mode, `connectPhase` does not fail with
`AuthError`: it constructs the client with the credential `{ key: "" }`
and proceeds toward opening the transport. -/
theorem no_auth_check_counterexample :
    connectPhase ⟨.model, "", "", "", "", "gpt-4o-realtime-preview"⟩ =
      .clientCreated (.key "") (.model "gpt-4o-realtime-preview") ∧
    connectPhase ⟨.model, "", "", "", "", "gpt-4o-realtime-preview"⟩ ≠
      .authError := by
  constructor
  · rfl
  · decide

/-- **C8 (amended).** `handleConnect` performs no client-side credential
validation: whenever neither an API key nor a token is supplied (both
empty) and the agent-selection guard does not trigger, the connect
attempt still constructs the client, with credential `{ key: "" }`;
any failure surfaces only later, from the transport, as a generic
connection error. -/
theorem no_client_side_auth_check (i : ConnInputs)
    (ht : i.entraToken = "") (hk : i.apiKey = "")
    (hg : ¬ (i.mode = .agent ∧ i.agentId = "")) :
    connectPhase i =
      .clientCreated (.key "")
        (match i.mode with
         | .agent => .agent i.agentId i.agentProjectName i.entraToken
         | .model => .model i.modelName) ∧
    connectPhase i ≠ .authError := by
  have h : connectPhase i =
      .clientCreated (.key "")
        (match i.mode with
         | .agent => .agent i.agentId i.agentProjectName i.entraToken
         | .model => .model i.modelName) := by
    rw [connectPhase, if_neg hg]
    simp [clientAuth, ht, hk]
  exact ⟨h, by rw [h]; exact fun hcontra => ConnectPhase.noConfusion hcontra⟩

/-- Witness for the amended C8 with empty credentials in model mode. -/
theorem no_client_side_auth_check_witness :
    ((⟨.model, "", "", "", "", "m1"⟩ : ConnInputs).entraToken = "" ∧
     (⟨.model, "", "", "", "", "m1"⟩ : ConnInputs).apiKey = "" ∧
     ¬ ((⟨.model, "", "", "", "", "m1"⟩ : ConnInputs).mode = .agent ∧
        (⟨.model, "", "", "", "", "m1"⟩ : ConnInputs).agentId = "")) ∧
    connectPhase ⟨.model, "", "", "", "", "m1"⟩ =
      .clientCreated (.key "") (.model "m1") := by
  refine ⟨⟨rfl, rfl, by decide⟩, ?_⟩
  exact (no_client_side_auth_check ⟨.model, "", "", "", "", "m1"⟩ rfl rfl (by decide)).1

/-! ### Sending a typed message (C5)

`sendMessage` (lines 891–914): guard on non-blank input and a live
client, append the user `Message`, then `sendItem` and
`generateResponse`; the `catch` only writes to the console. -/

/-- Outcome of the two awaited network calls in `sendMessage`'s `try`
block: both succeed, `sendItem` throws, or `generateResponse` throws. -/
inductive SendOutcome
  | ok
  | sendItemFails
  | generateFails
deriving DecidableEq, Repr

/-- Model of `String.prototype.trim`: drop leading and trailing
whitespace characters. -/
def trimString (s : String) : String :=
  ⟨((s.data.dropWhile Char.isWhitespace).reverse.dropWhile
      Char.isWhitespace).reverse⟩

/-- `sendMessage`: the resulting log and the ordered trace of actions
attempted.  On a blank (all-whitespace) input or a missing client,
nothing happens.  Otherwise the user `Message` is appended first; a
throwing network call is caught and logged to the console — the log is
not changed again, in particular no error `Message` is appended and the
user `Message` is not rolled back. -/
def sendMessage (currentMessage : String) (client : Option Unit)
    (outcome : SendOutcome) (log : List Message) : List Message × List Action :=
  if trimString currentMessage ≠ "" ∧ client.isSome then
    let log1 := log ++ [⟨.user, currentMessage⟩]
    match outcome with
    | .sendItemFails =>
        (log1, [.appendMessage ⟨.user, currentMessage⟩,
                .sendItem (.userText currentMessage)])
    | _ =>
        (log1, [.appendMessage ⟨.user, currentMessage⟩,
                .sendItem (.userText currentMessage), .generateResponse])
  else (log, [])

/-- **C5 counterexample.** When the network send fails, `sendMessage`
appends no error `Message`: after a failing send of `"hello"` the log
holds exactly the user `Message`, and no entry of type `error` exists,
contradicting the claim that a failure appends an error `Message`. -/
theorem send_failure_no_error_message :
    (sendMessage "hello" (some ()) .sendItemFails []).1 = [⟨.user, "hello"⟩] ∧
    ¬ ∃ m ∈ (sendMessage "hello" (some ()) .sendItemFails []).1,
        m.type = MsgType.error := by
  have h : (sendMessage "hello" (some ()) .sendItemFails []).1 =
      [⟨.user, "hello"⟩] := by decide
  refine ⟨h, ?_⟩
  rw [h]
  rintro ⟨m, hm, hty⟩
  simp at hm
  rw [hm] at hty
  exact MsgType.noConfusion hty

/-- **C5 (amended).** For every non-blank input with a live client, the
user `Message` is appended to the log before the network send is
attempted, and when the send fails the user `Message` is retained (not
rolled back) while the failure is only logged to the console: no error
`Message` is appended. -/
theorem user_message_appended_before_send (msg : String) (log : List Message)
    (outcome : SendOutcome) (h : trimString msg ≠ "") :
    (sendMessage msg (some ()) outcome log).1 = log ++ [⟨.user, msg⟩] ∧
    (sendMessage msg (some ()) outcome log).2 =
      [.appendMessage ⟨.user, msg⟩, .sendItem (.userText msg)] ++
        (match outcome with
         | .sendItemFails => []
         | _ => [Action.generateResponse]) ∧
    (∀ m ∈ (sendMessage msg (some ()) outcome log).1,
        m.type = MsgType.error → m ∈ log) := by
  have hcond : trimString msg ≠ "" ∧ (some () : Option Unit).isSome := ⟨h, rfl⟩
  refine ⟨?_, ?_, ?_⟩
  · cases outcome <;> simp [sendMessage, hcond]
  · cases outcome <;> simp [sendMessage, hcond]
  · intro m hm hty
    have hlog : (sendMessage msg (some ()) outcome log).1 = log ++ [⟨.user, msg⟩] := by
      cases outcome <;> simp [sendMessage, hcond]
    rw [hlog] at hm
    rcases List.mem_append.mp hm with hin | hin
    · exact hin
    · simp at hin
      rw [hin] at hty
      exact MsgType.noConfusion hty

/-- Witness for the amended C5 at `"hello"` with a successful send. -/
theorem user_message_appended_before_send_witness :
    trimString "hello" ≠ "" ∧
    (sendMessage "hello" (some ()) .ok []).1 = [⟨.user, "hello"⟩] :=
  ⟨by decide,
   by simpa using (user_message_appended_before_send "hello" [] .ok (by decide)).1⟩

/-! ### Teardown (C7)

`disconnect` (lines 717–743): a no-op when no client exists; otherwise
`await client.close()`, clear the handles and flags, stop playback, the
proactive manager, the animations, recording and the session recording.
The whole body sits in one `try`/`catch` whose handler only logs, so
`disconnect` never throws — but a throwing `close()` skips every
statement after it. -/

/-- The orchestrator state `disconnect` touches. -/
structure OrchState where
  client : Option Unit
  isConnected : Bool
  isRecording : Bool
  hasRecording : Bool
  userSpeaking : Bool
deriving DecidableEq, Repr

/-- One teardown side effect of `disconnect`, in program order. -/
inductive Teardown
  | closeClient
  | stopStreamingPlayback
  | stopProactive
  | stopRecordAnimation
  | stopPlayChunkAnimation
  | stopRecording
  | stopSessionRecording
deriving DecidableEq, Repr

/-- `disconnect`: `closeOk` records whether `client.close()` succeeds,
`recordedAudio` what `hasRecordedAudio()` reports.  It returns the new
state and the teardown actions actually performed; a thrown `close()`
is caught and logged, leaving every later statement unexecuted. -/
def disconnect (closeOk recordedAudio : Bool) (s : OrchState) :
    OrchState × List Teardown :=
  match s.client with
  | none => (s, [])
  | some _ =>
    if closeOk then
      ({ client := none, isConnected := false, isRecording := false,
         hasRecording := recordedAudio, userSpeaking := false },
       [.closeClient, .stopStreamingPlayback, .stopProactive,
        .stopRecordAnimation, .stopPlayChunkAnimation] ++
       (if s.isRecording then [.stopRecording] else []) ++
       [.stopSessionRecording])
    else (s, [.closeClient])

/-- **C7 counterexample.** When `client.close()` throws, the error is
swallowed but the client handle and connected flag are left unchanged:
the caller does not reach `Disconnected`, and a second `disconnect`
re-attempts teardown — contradicting the claim that teardown failures
still let the caller always reach `Disconnected` and that the second
call performs no teardown. -/
theorem disconnect_failure_leaves_connected :
    (disconnect false false ⟨some (), true, false, false, false⟩).1.isConnected = true ∧
    (disconnect false false
        (disconnect false false ⟨some (), true, false, false, false⟩).1).2 ≠ [] := by
  decide

/-- **C7 (amended).** `disconnect` never throws (every teardown error is
caught and only logged).  When `close()` succeeds the state reaches
`Disconnected` — client cleared, connected flag false — and any further
`disconnect` call performs no teardown at all, so calling it twice in a
row produces no duplicate teardown side effects.  When `close()`
throws, however, the state is left unchanged: the caller does not reach
`Disconnected` until a later call succeeds. -/
theorem disconnect_idempotent_on_success (s : OrchState) (r : Bool)
    (h : s.client = some ()) :
    (disconnect true r s).1.client = none ∧
    (disconnect true r s).1.isConnected = false ∧
    (∀ b r2 : Bool, disconnect b r2 ((disconnect true r s).1) =
      ((disconnect true r s).1, [])) ∧
    (disconnect false r s).1 = s := by
  refine ⟨by simp [disconnect, h], by simp [disconnect, h], ?_, by simp [disconnect, h]⟩
  intro b r2
  simp [disconnect, h]

/-- Witness for the amended C7 at a concrete connected state. -/
theorem disconnect_idempotent_on_success_witness :
    (⟨some (), true, true, false, false⟩ : OrchState).client = some () ∧
    (disconnect true false ⟨some (), true, true, false, false⟩).1.client = none ∧
    disconnect true true
        ((disconnect true false ⟨some (), true, true, false, false⟩).1) =
      ((disconnect true false ⟨some (), true, true, false, false⟩).1, []) := by
  have h := disconnect_idempotent_on_success
    ⟨some (), true, true, false, false⟩ false rfl
  exact ⟨rfl, h.1, h.2.2.1 true true⟩

end VoiceLive
